import Mathlib

/-!
Verification of the HiperAI guardrails module (`guardrails.py`, `config.py`,
`main.py`).  Python strings are modelled as `List Char`, Python `float`
timestamps as `ℚ`, and the mutable per-identity timestamp map of the rate
limiter as a total function `String → List ℚ` (a `defaultdict(list)`).
Definitions follow the Python source; theorems check the specification's
claims against them.
-/

/-- The whitespace characters recognised by Python's `str.split`, `str.strip`
and the regex class `\s` (ASCII range). -/
def isPySpace (c : Char) : Bool :=
  c = ' ' || c = '\t' || c = '\n' || c = '\r' || c = '\x0b' || c = '\x0c'

/-- Python `str.lower` (ASCII case folding; all patterns involved are ASCII). -/
def lowerStr (l : List Char) : List Char := l.map Char.toLower

/-- Python's substring test `needle in hay`: some position of `hay` starts
with `needle`. -/
def containsSub (hay needle : List Char) : Bool :=
  (List.range (hay.length + 1)).any (fun i => needle.isPrefixOf (hay.drop i))

/-- Python `str.strip()`: remove leading and trailing whitespace. -/
def pyStrip (l : List Char) : List Char :=
  (l.dropWhile isPySpace).rdropWhile isPySpace

/-- Auxiliary for `pySplit`: `acc` is the reversed current word. -/
def pySplitAux : List Char → List Char → List (List Char)
  | [], acc => if acc.isEmpty then [] else [acc.reverse]
  | c :: cs, acc =>
    if isPySpace c then
      if acc.isEmpty then pySplitAux cs [] else acc.reverse :: pySplitAux cs []
    else pySplitAux cs (c :: acc)

/-- Python `str.split()` with no argument: split on whitespace runs,
dropping empty tokens. -/
def pySplit (l : List Char) : List (List Char) := pySplitAux l []

/- ===================== RateLimiter (guardrails.py 19-43) ===================== -/

/-- `RateLimiter.__init__`: the two configuration fields. -/
structure RateLimiter where
  max_requests : ℕ
  window_seconds : ℕ

/-- `self.requests`: per-client timestamp lists, `defaultdict(list)`. -/
def RLState : Type := String → List ℚ

/-- The initial (empty) request map. -/
def emptyRL : RLState := fun _ => []

/-- The rejection message built in `RateLimiter.is_allowed`. -/
def rateLimitMsg (rl : RateLimiter) : String :=
  "Rate limit exceeded. Max " ++ toString rl.max_requests ++ " requests per "
    ++ toString rl.window_seconds ++ " seconds."

/-- `RateLimiter.is_allowed` (guardrails.py 27-43): purge timestamps outside
the window, reject when the kept count reaches `max_requests` (without
recording the attempt), otherwise record `now` and accept.  Returns the
`(bool, reason)` pair together with the updated request map. -/
def RateLimiter.is_allowed (rl : RateLimiter) (s : RLState) (client : String)
    (now : ℚ) : (Bool × Option String) × RLState :=
  let kept := (s client).filter (fun t => now - t < (rl.window_seconds : ℚ))
  if rl.max_requests ≤ kept.length then
    ((false, some (rateLimitMsg rl)), fun c => if c = client then kept else s c)
  else
    ((true, none), fun c => if c = client then kept ++ [now] else s c)

/-- Run a sequence of `is_allowed` calls for one client at the given times,
collecting the admission verdicts. -/
def runCalls (rl : RateLimiter) (client : String) : RLState → List ℚ → RLState × List Bool
  | s, [] => (s, [])
  | s, t :: ts =>
    let r := rl.is_allowed s client t
    let p := runCalls rl client r.2 ts
    (p.1, r.1.1 :: p.2)

example : ((RateLimiter.mk 2 60).is_allowed emptyRL "1.2.3.4" 0).1.1 = true := by
  norm_num [RateLimiter.is_allowed, emptyRL]

example :
    (runCalls (RateLimiter.mk 2 60) "1.2.3.4" emptyRL [0, 10]).2 = [true, true] := by
  norm_num [runCalls, RateLimiter.is_allowed, emptyRL]

example :
    ((RateLimiter.mk 2 60).is_allowed
      (runCalls (RateLimiter.mk 2 60) "1.2.3.4" emptyRL [0, 10]).1 "1.2.3.4" 20).1
      = (false, some "Rate limit exceeded. Max 2 requests per 60 seconds.") := by
  norm_num [runCalls, RateLimiter.is_allowed, emptyRL, rateLimitMsg]
  decide

/- ===================== ContentFilter (guardrails.py 46-90) ===================== -/

/-- Python regex word characters (`\w`, ASCII range): letters, digits, `_`. -/
def isWordChar (c : Char) : Bool := c.isAlphanum || c = '_'

/-- Whether position `i` of `t` holds a word character (out of range: no). -/
def wordCharAt (t : List Char) (i : ℕ) : Bool :=
  match t.drop i with
  | [] => false
  | c :: _ => isWordChar c

/-- A match of `\b w \b` (for a word `w` of word characters) starting at
position `i` of `t`: `w` occurs there, nothing word-like just before, and
nothing word-like just after. -/
def wbWordAt (w t : List Char) (i : ℕ) : Bool :=
  w.isPrefixOf (t.drop i) && (i = 0 || !wordCharAt t (i - 1))
    && !wordCharAt t (i + w.length)

/-- `re.search` for an alternation of `\b`-delimited words, `re.IGNORECASE`:
some word of `ws` (given lowercase) matches somewhere in the lowercased text. -/
def wordSearch (ws : List (List Char)) (t : List Char) : Bool :=
  (List.range (t.length + 1)).any (fun i => ws.any (fun w => wbWordAt w (lowerStr t) i))

/-- All characters of `t` strictly between positions `a` and `b` (i.e. at
indices `a ≤ k < b`) are different from newline — the region a `.`-sequence
of a Python regex (without `re.DOTALL`) may span. -/
def noNl (t : List Char) (a b : ℕ) : Bool :=
  ((t.drop a).take (b - a)).all (fun c => c ≠ '\n')

/-- `re.search(r'<script.*?>.*?</script>', ., re.IGNORECASE)`: in the
lowercased text, `<script` at `i`, a newline-free stretch, `>` at `j`, a
newline-free stretch, `</script>` at `k`. -/
def scriptTagMatch (t : List Char) : Bool :=
  let lt := lowerStr t
  let n := lt.length
  (List.range (n + 1)).any fun i =>
    ("<script".toList.isPrefixOf (lt.drop i)) &&
      (List.range (n + 1)).any fun j =>
        (decide (i + 7 ≤ j)) && ((lt.drop j).take 1 = ['>']) && noNl lt (i + 7) j &&
          (List.range (n + 1)).any fun k =>
            (decide (j + 1 ≤ k)) && ("</script>".toList.isPrefixOf (lt.drop k))
              && noNl lt (j + 1) k

/-- `re.search(r'(\bDROP\b|\bDELETE\b|\bINSERT\b)\s+(TABLE|FROM|INTO)', ., re.IGNORECASE)`:
a `\b`-delimited SQL verb at `i`, at least one whitespace character, then one
of the three keywords (no trailing `\b`). -/
def sqlMatch (t : List Char) : Bool :=
  let lt := lowerStr t
  let n := lt.length
  (List.range (n + 1)).any fun i =>
    (["drop".toList, "delete".toList, "insert".toList]).any fun v =>
      wbWordAt v lt i &&
        (List.range (n + 1)).any fun j =>
          (decide (i + v.length < j))
            && ((lt.drop (i + v.length)).take (j - (i + v.length))).all isPySpace
            && (["table".toList, "from".toList, "into".toList]).any
                 (fun w => w.isPrefixOf (lt.drop j))

/-- `self.blacklist_regex.search(text)` (guardrails.py 50-55, 64): the four
`BLACKLIST_PATTERNS` joined by `|`, compiled with `re.IGNORECASE`. -/
def blacklist_search (t : List Char) : Bool :=
  wordSearch ["hack".toList, "exploit".toList, "inject".toList, "sql".toList,
    "script".toList, "xss".toList, "malware".toList] t
  || scriptTagMatch t
  || containsSub (lowerStr t) "javascript:".toList
  || containsSub (lowerStr t) "data:text/html".toList
  || sqlMatch t

/-- `self.inappropriate_regex.search(text)` (guardrails.py 58-61, 65): the two
`INAPPROPRIATE_PATTERNS` joined by `|`, each an alternation of
`\b`-delimited words, compiled with `re.IGNORECASE`. -/
def inappropriate_search (t : List Char) : Bool :=
  wordSearch ["porn".toList, "xxx".toList, "sex".toList, "nude".toList,
    "nsfw".toList, "violence".toList, "kill".toList, "murder".toList,
    "terrorist".toList] t

/-- `ContentFilter.is_safe` (guardrails.py 67-80). -/
def ContentFilter.is_safe (t : List Char) : Bool × Option String :=
  if blacklist_search t then
    (false, some "Input contains potentially malicious content")
  else if inappropriate_search t then
    (false, some "Input contains inappropriate content")
  else (true, none)

/-- `re.sub(r'<[^>]+>', '', text)`, processed left to right.  The second
argument is `none` when no unclosed `<` is pending, and `some buf` when a `<`
has been read and `buf` holds (reversed) the non-`>` characters seen since:
on a subsequent `>` the whole `<...>` stretch is dropped if nonempty
(`[^>]+` needs at least one character), and a pending `<` with no later `>`
is flushed verbatim. -/
def removeTagsAux : List Char → Option (List Char) → List Char
  | [], none => []
  | [], some buf => '<' :: buf.reverse
  | c :: cs, none =>
    if c = '<' then removeTagsAux cs (some []) else c :: removeTagsAux cs none
  | c :: cs, some buf =>
    if c = '>' then
      if buf.isEmpty then '<' :: '>' :: removeTagsAux cs none
      else removeTagsAux cs none
    else removeTagsAux cs (some (c :: buf))

/-- Step 1 of `ContentFilter.sanitize`: strip HTML-like tags. -/
def removeTags (t : List Char) : List Char := removeTagsAux t none

/-- Step 2 of `ContentFilter.sanitize`: `re.sub(r'\s+', ' ', text)` —
replace each maximal whitespace run with a single space. -/
def collapseWs : List Char → List Char
  | [] => []
  | [c] => if isPySpace c then [' '] else [c]
  | c :: d :: cs =>
    if isPySpace c then
      if isPySpace d then collapseWs (d :: cs) else ' ' :: collapseWs (d :: cs)
    else c :: collapseWs (d :: cs)

/-- The characters removed by step 3 of `ContentFilter.sanitize`
(`re.sub(r'[<>{}]', '', text)`). -/
def isSpecialChar (c : Char) : Bool :=
  c = '<' || c = '>' || c = '\x7b' || c = '\x7d'

/-- `ContentFilter.sanitize` (guardrails.py 82-90): strip tags, collapse
whitespace, remove `<`, `>` and braces, then `str.strip()`. -/
def ContentFilter.sanitize (t : List Char) : List Char :=
  pyStrip ((collapseWs (removeTags t)).filter (fun c => !isSpecialChar c))

example : removeTags "<b>x</b>".toList = "x".toList := by decide
example : ContentFilter.sanitize "  hello   world  ".toList = "hello world".toList := by decide
example : (ContentFilter.is_safe "hack it".toList).1 = false := by decide

/- ===================== InputValidator (guardrails.py 93-124) ===================== -/

/-- `InputValidator.MIN_LENGTH`. -/
def InputValidator.MIN_LENGTH : ℕ := 10

/-- `InputValidator.MAX_LENGTH`. -/
def InputValidator.MAX_LENGTH : ℕ := 2000

/-- `re.search(r'[a-zA-Z0-9]', text)`: the text has an ASCII alphanumeric
character. -/
def hasAlnum (l : List Char) : Bool := l.any (fun c => c.isAlphanum)

/-- `InputValidator.validate_role_details` (guardrails.py 100-118): reject
empty/whitespace-only text, then too-short, then too-long, then text with no
alphanumeric character; otherwise accept. -/
def InputValidator.validate_role_details (t : List Char) : Bool × Option String :=
  if t.isEmpty || (pyStrip t).isEmpty then
    (false, some "Role details cannot be empty")
  else if t.length < InputValidator.MIN_LENGTH then
    (false, some ("Role details too short. Minimum "
      ++ toString InputValidator.MIN_LENGTH ++ " characters required"))
  else if InputValidator.MAX_LENGTH < t.length then
    (false, some ("Role details too long. Maximum "
      ++ toString InputValidator.MAX_LENGTH ++ " characters allowed"))
  else if !hasAlnum t then
    (false, some "Role details must contain valid text")
  else (true, none)

example : (InputValidator.validate_role_details "hi".toList).1 = false := by decide
example : (InputValidator.validate_role_details "Senior Backend Engineer, Python".toList).1
    = true := by decide

/- ===================== OutputValidator (guardrails.py 127-176) ===================== -/

/-- `OutputValidator.REQUIRED_SECTIONS`. -/
def OutputValidator.REQUIRED_SECTIONS : List (List Char) :=
  ["Job Title".toList, "Job Summary".toList, "Responsibilities".toList, "Skills".toList]

/-- `OutputValidator.MIN_OUTPUT_LENGTH`. -/
def OutputValidator.MIN_OUTPUT_LENGTH : ℕ := 100

/-- `OutputValidator.MAX_OUTPUT_LENGTH`. -/
def OutputValidator.MAX_OUTPUT_LENGTH : ℕ := 5000

/-- The number of required sections appearing (case-insensitively) in `out`:
`sum(1 for section in REQUIRED_SECTIONS if section.lower() in output.lower())`. -/
def sectionsCount (out : List Char) : ℕ :=
  (OutputValidator.REQUIRED_SECTIONS.filter
    (fun sec => containsSub (lowerStr out) (lowerStr sec))).length

/-- `OutputValidator.validate_output` (guardrails.py 141-162): reject
under-length output; truncate over-length output instead of rejecting; then
require at least 2 of the expected sections in the (possibly truncated) text. -/
def OutputValidator.validate_output (out : List Char) : Bool × Option String :=
  if out.length < OutputValidator.MIN_OUTPUT_LENGTH then
    (false, some "Generated output is too short")
  else
    let out2 := if OutputValidator.MAX_OUTPUT_LENGTH < out.length then
      out.take OutputValidator.MAX_OUTPUT_LENGTH else out
    if sectionsCount out2 < 2 then
      (false, some "Generated output doesn't match expected format")
    else (true, none)

/-- The bullet-marker characters of the regex character class on
guardrails.py 174.  The source file's bytes there are the UTF-8 mojibake of
a bullet point (`2D C3 A2 E2 82 AC C2 A2 2A` between the brackets), so the
class the program compiles is `-`, `\u00e2`, `\u20ac`, `\u00a2`, `*` —
it never contains the bullet `\u2022` itself. -/
def bulletChar (c : Char) : Bool :=
  c = '-' || c = '\u00e2' || c = '\u20ac' || c = '\u00a2' || c = '*'

/-- The `has_bullet_points` regex search of guardrails.py 174: somewhere in
the text, a character of the (mojibake) bullet class immediately followed by
a whitespace character. -/
def hasBulletWs : List Char → Bool
  | a :: b :: rest => (bulletChar a && isPySpace b) || hasBulletWs (b :: rest)
  | _ => false

/-- The quality-metrics dictionary built by
`OutputValidator.check_output_quality`. -/
structure QualityMetrics where
  length : ℕ
  word_count : ℕ
  sections_found : List (List Char)
  has_bullet_points : Bool
  quality_score : ℚ
deriving DecidableEq

/-- `OutputValidator.check_output_quality` (guardrails.py 165-176). -/
def OutputValidator.check_output_quality (out : List Char) : QualityMetrics :=
  { length := out.length
    word_count := (pySplit out).length
    sections_found := OutputValidator.REQUIRED_SECTIONS.filter
      (fun sec => containsSub (lowerStr out) (lowerStr sec))
    has_bullet_points := hasBulletWs out
    quality_score := min 100 (((pySplit out).length : ℚ) / 5) }

/- ===================== Configuration (config.py 10-43) ===================== -/

/-- The four enable/disable feature toggles of `GuardrailsConfig`
(config.py 40-43).  All default to `true`.  Note: no function in
`guardrails.py` or `main.py` reads any of these fields. -/
structure GuardrailsConfig where
  ENABLE_RATE_LIMITING : Bool := true
  ENABLE_CONTENT_FILTERING : Bool := true
  ENABLE_INPUT_VALIDATION : Bool := true
  ENABLE_OUTPUT_VALIDATION : Bool := true

/- ===================== GuardrailsManager (guardrails.py 179-238) ===================== -/

/-- The rate limiter held by the global `GuardrailsManager` instance
(guardrails.py 238: `rate_limit=10, rate_window=60`). -/
def guardrailsRL : RateLimiter := { max_requests := 10, window_seconds := 60 }

/-- `GuardrailsManager.validate_request` (guardrails.py 189-217): rate check,
then input validation, then content filtering, then sanitization, stopping at
the first failure.  Returns `(is_valid, sanitized_input, error_message)`
together with the rate limiter's updated request map. -/
def GuardrailsManager.validate_request (rl : RateLimiter) (s : RLState)
    (client : String) (role_details : List Char) (now : ℚ) :
    (Bool × Option (List Char) × Option String) × RLState :=
  let ra := rl.is_allowed s client now
  if ra.1.1 = false then ((false, none, ra.1.2), ra.2)
  else
    let v := InputValidator.validate_role_details role_details
    if v.1 = false then ((false, none, v.2), ra.2)
    else
      let cf := ContentFilter.is_safe role_details
      if cf.1 = false then ((false, none, cf.2), ra.2)
      else ((true, some (ContentFilter.sanitize role_details), none), ra.2)

/-- `GuardrailsManager.validate_output` (guardrails.py 219-234): run the
output validator; on success compute quality metrics on the argument string.
Returns `(is_valid, error_message, quality_metrics)`. -/
def GuardrailsManager.validate_output (out : List Char) :
    Bool × Option String × Option QualityMetrics :=
  let v := OutputValidator.validate_output out
  if v.1 = false then (false, v.2, none)
  else (true, none, some (OutputValidator.check_output_quality out))

/- ===================== Endpoint success path (main.py 76-139) ===================== -/

/-- The part of the `/generate-jd` handler that follows generation
(main.py 124-139): validate the generated text and, on success, answer with
the generated text itself (untruncated) plus the quality metrics. -/
def generate_jd_response (jd : List Char) : Option (List Char × QualityMetrics) :=
  let r := GuardrailsManager.validate_output jd
  if r.1 = false then none
  else r.2.2.map (fun q => (jd, q))

/-- Stated from the claim's wording for comparison with the code: some line
of the text (the whole text, or a part following a newline) starts with a
bullet-marker character. -/
def bulletAfterNl : List Char → Bool
  | a :: b :: rest => (a = '\n' && bulletChar b) || bulletAfterNl (b :: rest)
  | _ => false

/-- Stated from the claim's wording for comparison with the code: a
bullet-marker character appears at a line start. -/
def specBulletAtLineStart (l : List Char) : Bool :=
  match l with
  | [] => false
  | c :: _ => bulletChar c || bulletAfterNl l

example : (OutputValidator.validate_output "hi".toList).1 = false := by decide
example : hasBulletWs "a - b".toList = true := by decide
example : hasBulletWs "\u2022 item".toList = false := by decide
example : hasBulletWs "\u00e2 x".toList = true := by decide
example : specBulletAtLineStart "a - b".toList = false := by decide
example : specBulletAtLineStart "x\n- b".toList = true := by decide

/- ===================== Rate limiter lemmas ===================== -/

theorem runCalls_all_true (rl : RateLimiter) (client : String) (ts : List ℚ) :
    ∀ (l : List ℚ) (s : RLState), s client = l →
      l.length + ts.length ≤ rl.max_requests →
      (∀ x ∈ l ++ ts, ∀ y ∈ l ++ ts, x - y < (rl.window_seconds : ℚ)) →
      (∀ b ∈ (runCalls rl client s ts).2, b = true)
        ∧ (runCalls rl client s ts).1 client = l ++ ts := by
  induction ts with
  | nil =>
    intro l s hs _ _
    simp [runCalls, hs]
  | cons t ts ih =>
    intro l s hs hlen hwin
    have hkept : (s client).filter (fun x => decide (t - x < (rl.window_seconds : ℚ))) = l := by
      rw [hs]
      apply List.filter_eq_self.mpr
      intro x hx
      simpa using hwin t (by simp) x (by simp [hx])
    have hlt : ¬ rl.max_requests ≤ l.length := by
      simp only [List.length_cons] at hlen
      omega
    have hres : rl.is_allowed s client t
        = ((true, none), fun c => if c = client then l ++ [t] else s c) := by
      simp only [RateLimiter.is_allowed, hkept, if_neg hlt]
    have hmem : ∀ z : ℚ, z ∈ (l ++ [t]) ++ ts → z ∈ l ++ t :: ts := by
      intro z hz
      simp only [List.mem_append, List.mem_cons, List.mem_singleton] at hz ⊢
      tauto
    have hstep := ih (l ++ [t]) (fun c => if c = client then l ++ [t] else s c)
      (by simp)
      (by simp only [List.length_append, List.length_cons, List.length_nil] at hlen ⊢; omega)
      (fun x hx y hy => hwin x (hmem x hx) y (hmem y hy))
    constructor
    · intro b hb
      simp only [runCalls, hres, List.mem_cons] at hb
      rcases hb with h | h
      · simpa using h
      · exact hstep.1 b h
    · simp only [runCalls, hres]
      rw [hstep.2]
      simp

theorem is_allowed_verdict (rl : RateLimiter) (s : RLState) (client : String) (now : ℚ) :
    (rl.is_allowed s client now).1.1
      = decide (((s client).filter
          (fun x => now - x < (rl.window_seconds : ℚ))).length < rl.max_requests) := by
  simp only [RateLimiter.is_allowed]
  split
  · rename_i h
    simp [Nat.not_lt.mpr h]
  · rename_i h
    simp [Nat.lt_of_not_le h]

theorem is_allowed_state_reject (rl : RateLimiter) (s : RLState) (client : String) (now : ℚ)
    (h : rl.max_requests ≤ ((s client).filter
      (fun x => now - x < (rl.window_seconds : ℚ))).length) :
    rl.is_allowed s client now
      = ((false, some (rateLimitMsg rl)),
          fun c => if c = client then
            (s client).filter (fun x => now - x < (rl.window_seconds : ℚ)) else s c) := by
  simp only [RateLimiter.is_allowed, if_pos h]

theorem is_allowed_state_accept (rl : RateLimiter) (s : RLState) (client : String) (now : ℚ)
    (h : ((s client).filter
      (fun x => now - x < (rl.window_seconds : ℚ))).length < rl.max_requests) :
    rl.is_allowed s client now
      = ((true, none),
          fun c => if c = client then
            (s client).filter (fun x => now - x < (rl.window_seconds : ℚ)) ++ [now]
          else s c) := by
  simp only [RateLimiter.is_allowed, if_neg (Nat.not_le.mpr h)]

/-- C1: on each call `RateLimiter.is_allowed` first discards the identity's
timestamps older than the window — the kept list is a sublist, so relative
order is preserved — then rejects with the reason naming the limit and the
window without recording the attempt when the kept count is at least
`max_requests`, and otherwise appends the current timestamp and accepts.
Consequently, for every identity with no prior history, `max_requests` calls
within one window are all admitted and the next call inside the same window
is rejected with the rate-limit reason. -/
theorem rateLimiter_window_limit (rl : RateLimiter) :
    (∀ (s : RLState) (client : String) (now : ℚ),
      ((s client).filter (fun x => now - x < (rl.window_seconds : ℚ))).Sublist (s client)
      ∧ (rl.max_requests
            ≤ ((s client).filter (fun x => now - x < (rl.window_seconds : ℚ))).length →
          (rl.is_allowed s client now).1 = (false, some (rateLimitMsg rl))
          ∧ (rl.is_allowed s client now).2 client
              = (s client).filter (fun x => now - x < (rl.window_seconds : ℚ)))
      ∧ (((s client).filter (fun x => now - x < (rl.window_seconds : ℚ))).length
            < rl.max_requests →
          (rl.is_allowed s client now).1 = (true, none)
          ∧ (rl.is_allowed s client now).2 client
              = (s client).filter (fun x => now - x < (rl.window_seconds : ℚ)) ++ [now]))
    ∧ (∀ (s : RLState) (client : String) (ts : List ℚ) (t' : ℚ),
        s client = [] →
        ts.length = rl.max_requests →
        (∀ x ∈ ts ++ [t'], ∀ y ∈ ts ++ [t'], x - y < (rl.window_seconds : ℚ)) →
        (∀ b ∈ (runCalls rl client s ts).2, b = true)
        ∧ (rl.is_allowed (runCalls rl client s ts).1 client t').1
            = (false, some (rateLimitMsg rl))) := by
  constructor
  · intro s client now
    refine ⟨List.filter_sublist _, fun h => ?_, fun h => ?_⟩
    · rw [is_allowed_state_reject rl s client now h]
      exact ⟨rfl, by simp⟩
    · rw [is_allowed_state_accept rl s client now h]
      exact ⟨rfl, by simp⟩
  · intro s client ts t' hs hlen hwin
    have hrun := runCalls_all_true rl client ts [] s hs (by simp [hlen])
      (by
        intro x hx y hy
        simp only [List.nil_append] at hx hy
        exact hwin x (by simp [hx]) y (by simp [hy]))
    refine ⟨hrun.1, ?_⟩
    have hkept : (((runCalls rl client s ts).1 client).filter
        (fun x => t' - x < (rl.window_seconds : ℚ))) = ts := by
      rw [hrun.2]
      simp only [List.nil_append]
      apply List.filter_eq_self.mpr
      intro x hx
      simpa using hwin t' (by simp) x (by simp [hx])
    have hge : rl.max_requests ≤ (((runCalls rl client s ts).1 client).filter
        (fun x => t' - x < (rl.window_seconds : ℚ))).length := by
      rw [hkept, hlen]
    rw [is_allowed_state_reject rl _ client t' hge]

/-- Witness for C1 at the specification's own scenario: identity `"1.2.3.4"`,
`max_requests = 2`, `window_seconds = 60`, calls at `t = 0` and `t = 10`,
rejection at `t = 20`. -/
theorem rateLimiter_window_limit_witness :
    ((RateLimiter.mk 2 60).is_allowed
        (runCalls (RateLimiter.mk 2 60) "1.2.3.4" emptyRL [0, 10]).1 "1.2.3.4" 20).1
      = (false, some (rateLimitMsg (RateLimiter.mk 2 60))) :=
  ((rateLimiter_window_limit (RateLimiter.mk 2 60)).2 emptyRL "1.2.3.4" [0, 10] 20
    rfl rfl (by
      intro x hx y hy
      simp only [List.mem_append, List.mem_cons, List.mem_singleton,
        List.not_mem_nil, or_false] at hx hy
      rcases hx with (rfl | rfl) | rfl <;> rcases hy with (rfl | rfl) | rfl <;> norm_num)).2

/-- C7: after every call to `RateLimiter.is_allowed`, every timestamp
retained for the called identity satisfies `now - timestamp < window_seconds`
(older entries are purged before the admission check), and once
`window_seconds` elapse with no further calls, a previously rate-limited
identity is admitted again. -/
theorem rateLimiter_retained_fresh (rl : RateLimiter) (hw : 0 < rl.window_seconds) :
    (∀ (s : RLState) (client : String) (now : ℚ),
      ∀ x ∈ (rl.is_allowed s client now).2 client, now - x < (rl.window_seconds : ℚ))
    ∧ (∀ (s : RLState) (client : String) (now now' : ℚ),
        (∀ x ∈ s client, x ≤ now) →
        (rl.is_allowed s client now).1.1 = false →
        now + (rl.window_seconds : ℚ) ≤ now' →
        0 < rl.max_requests →
        (rl.is_allowed (rl.is_allowed s client now).2 client now').1.1 = true) := by
  constructor
  · intro s client now x hx
    by_cases hc : rl.max_requests ≤ ((s client).filter
        (fun y => now - y < (rl.window_seconds : ℚ))).length
    · rw [is_allowed_state_reject rl s client now hc] at hx
      simp at hx
      exact hx.2
    · rw [is_allowed_state_accept rl s client now (Nat.lt_of_not_le hc)] at hx
      simp at hx
      rcases hx with ⟨-, h⟩ | rfl
      · exact h
      · simpa using Nat.cast_pos.mpr hw
  · intro s client now now' hpast hrej hgap hmax
    have hc : rl.max_requests ≤ ((s client).filter
        (fun y => now - y < (rl.window_seconds : ℚ))).length := by
      by_contra hc
      rw [is_allowed_state_accept rl s client now (Nat.lt_of_not_le hc)] at hrej
      simp at hrej
    have hstate : (rl.is_allowed s client now).2 client
        = (s client).filter (fun y => now - y < (rl.window_seconds : ℚ)) := by
      rw [is_allowed_state_reject rl s client now hc]
      simp
    have hempty : (((rl.is_allowed s client now).2 client).filter
        (fun y => now' - y < (rl.window_seconds : ℚ))) = [] := by
      rw [hstate]
      apply List.filter_eq_nil_iff.mpr
      intro x hx
      have hle : x ≤ now := hpast x (List.mem_filter.mp hx).1
      simp only [decide_eq_true_eq, not_lt]
      linarith
    rw [is_allowed_verdict, hempty]
    simpa using hmax

/-- Witness for C7: with limit 2 per 60 seconds and history `[0, 10]`, the
call at `t = 20` is rejected, and after the window passes (`t = 80`) the
same identity is admitted again. -/
theorem rateLimiter_retained_fresh_witness :
    ((RateLimiter.mk 2 60).is_allowed
      ((RateLimiter.mk 2 60).is_allowed
        (fun c => if c = "1.2.3.4" then [0, 10] else []) "1.2.3.4" 20).2
      "1.2.3.4" 80).1.1 = true :=
  (rateLimiter_retained_fresh (RateLimiter.mk 2 60) (by norm_num)).2
    (fun c => if c = "1.2.3.4" then [0, 10] else []) "1.2.3.4" 20 80
    (by
      intro x hx
      simp at hx
      rcases hx with rfl | rfl <;> norm_num)
    (by norm_num [RateLimiter.is_allowed])
    (by norm_num)
    (by norm_num)

/-- C9: `GuardrailsManager.validate_request` only touches the rate limiter's
state in its first step: the final request map always equals the map left by
`RateLimiter.is_allowed`, and whenever the rate check passes the current
timestamp has been appended for the identity — so a request later rejected
by input validation or content filtering still consumes one rate-limit slot. -/
theorem validate_request_consumes_slot (rl : RateLimiter) (s : RLState)
    (client : String) (text : List Char) (now : ℚ) :
    (GuardrailsManager.validate_request rl s client text now).2
        = (rl.is_allowed s client now).2
    ∧ ((rl.is_allowed s client now).1.1 = true →
        (GuardrailsManager.validate_request rl s client text now).2 client
          = (s client).filter (fun x => now - x < (rl.window_seconds : ℚ)) ++ [now]
        ∧ now ∈ (GuardrailsManager.validate_request rl s client text now).2 client) := by
  have hstate : (GuardrailsManager.validate_request rl s client text now).2
      = (rl.is_allowed s client now).2 := by
    simp only [GuardrailsManager.validate_request]
    split
    · rfl
    · split
      · rfl
      · split
        · rfl
        · rfl
  refine ⟨hstate, fun htrue => ?_⟩
  have hlt : ((s client).filter (fun x => now - x < (rl.window_seconds : ℚ))).length
      < rl.max_requests := by
    rw [is_allowed_verdict] at htrue
    simpa using htrue
  have hacc := is_allowed_state_accept rl s client now hlt
  constructor
  · rw [hstate, hacc]
    simp
  · rw [hstate, hacc]
    simp

/-- Witness for C9: a fresh identity sends the too-short input `"hi"`; the
request is rejected by input validation, yet the timestamp `0` has been
recorded for that identity. -/
theorem validate_request_consumes_slot_witness :
    (GuardrailsManager.validate_request guardrailsRL emptyRL "9.9.9.9" "hi".toList 0).1.1
        = false
    ∧ (0 : ℚ) ∈ (GuardrailsManager.validate_request guardrailsRL emptyRL
        "9.9.9.9" "hi".toList 0).2 "9.9.9.9" :=
  ⟨by
    norm_num [GuardrailsManager.validate_request, RateLimiter.is_allowed, emptyRL,
      guardrailsRL, InputValidator.validate_role_details, InputValidator.MIN_LENGTH,
      pyStrip]
    decide,
   ((validate_request_consumes_slot guardrailsRL emptyRL "9.9.9.9" "hi".toList 0).2
      (by norm_num [RateLimiter.is_allowed, emptyRL, guardrailsRL])).2⟩

/-- C2: the feature toggles of `GuardrailsConfig` are dead configuration —
no code in `guardrails.py` or `main.py` reads them, so the pipeline stages of
`GuardrailsManager.validate_request` run unconditionally.  Even under a
configuration with every toggle off (here: input validation disabled), the
input-validation stage still runs and rejects the too-short input `"hi"`. -/
theorem toggles_not_consulted (cfg : GuardrailsConfig)
    (hin : cfg.ENABLE_INPUT_VALIDATION = false) :
    (GuardrailsManager.validate_request guardrailsRL emptyRL "client-a" "hi".toList 0).1
      = (false, none,
          some "Role details too short. Minimum 10 characters required") := by
  norm_num [GuardrailsManager.validate_request, RateLimiter.is_allowed, emptyRL,
    guardrailsRL, InputValidator.validate_role_details, InputValidator.MIN_LENGTH,
    pyStrip]
  decide

/-- Witness for C2: the configuration with all four toggles disabled. -/
theorem toggles_not_consulted_witness :
    (GuardrailsManager.validate_request guardrailsRL emptyRL "client-a" "hi".toList 0).1
      = (false, none,
          some "Role details too short. Minimum 10 characters required") :=
  toggles_not_consulted (GuardrailsConfig.mk false false false false) rfl

/- ===================== InputValidator lemmas ===================== -/

theorem dropWhile_all_iff (p : Char → Bool) (l : List Char) :
    (∀ x ∈ l.dropWhile p, p x = true) ↔ (∀ x ∈ l, p x = true) := by
  induction l with
  | nil => simp
  | cons c cs ih =>
    by_cases hc : p c = true
    · simpa [List.dropWhile_cons, hc] using ih
    · simp [List.dropWhile_cons, hc]

theorem pyStrip_isEmpty_iff (t : List Char) :
    (pyStrip t).isEmpty = true ↔ ∀ c ∈ t, isPySpace c = true := by
  rw [pyStrip, List.isEmpty_iff, List.rdropWhile_eq_nil_iff]
  exact dropWhile_all_iff isPySpace t

theorem empty_or_strip_iff (t : List Char) :
    (t.isEmpty || (pyStrip t).isEmpty) = true ↔ ∀ c ∈ t, isPySpace c = true := by
  rw [Bool.or_eq_true]
  constructor
  · rintro (h | h)
    · rw [List.isEmpty_iff] at h
      subst h
      simp
    · exact (pyStrip_isEmpty_iff t).mp h
  · intro h
    exact Or.inr ((pyStrip_isEmpty_iff t).mpr h)

/-- C4: `InputValidator.validate_role_details` accepts exactly the texts
that are not whitespace-only, have length between `MIN_LENGTH` and
`MAX_LENGTH`, and contain an alphanumeric character; the four checks run in
that order, short-circuit on the first failure, and each failure yields its
own distinct reason. -/
theorem validate_role_details_spec (t : List Char) :
    ((InputValidator.validate_role_details t).1 = true ↔
      ¬(∀ c ∈ t, isPySpace c = true) ∧ InputValidator.MIN_LENGTH ≤ t.length
        ∧ t.length ≤ InputValidator.MAX_LENGTH ∧ hasAlnum t = true)
    ∧ ((∀ c ∈ t, isPySpace c = true) →
        (InputValidator.validate_role_details t).2 = some "Role details cannot be empty")
    ∧ (¬(∀ c ∈ t, isPySpace c = true) → t.length < InputValidator.MIN_LENGTH →
        (InputValidator.validate_role_details t).2
          = some "Role details too short. Minimum 10 characters required")
    ∧ (¬(∀ c ∈ t, isPySpace c = true) → InputValidator.MIN_LENGTH ≤ t.length →
        InputValidator.MAX_LENGTH < t.length →
        (InputValidator.validate_role_details t).2
          = some "Role details too long. Maximum 2000 characters allowed")
    ∧ (¬(∀ c ∈ t, isPySpace c = true) → InputValidator.MIN_LENGTH ≤ t.length →
        t.length ≤ InputValidator.MAX_LENGTH → hasAlnum t = false →
        (InputValidator.validate_role_details t).2
          = some "Role details must contain valid text")
    ∧ (("Role details cannot be empty" : String)
          ≠ "Role details too short. Minimum 10 characters required"
        ∧ ("Role details cannot be empty" : String)
          ≠ "Role details too long. Maximum 2000 characters allowed"
        ∧ ("Role details cannot be empty" : String)
          ≠ "Role details must contain valid text"
        ∧ ("Role details too short. Minimum 10 characters required" : String)
          ≠ "Role details too long. Maximum 2000 characters allowed"
        ∧ ("Role details too short. Minimum 10 characters required" : String)
          ≠ "Role details must contain valid text"
        ∧ ("Role details too long. Maximum 2000 characters allowed" : String)
          ≠ "Role details must contain valid text") := by
  by_cases hws : ∀ c ∈ t, isPySpace c = true
  · have hcond : (t.isEmpty || (pyStrip t).isEmpty) = true := (empty_or_strip_iff t).mpr hws
    have hval : InputValidator.validate_role_details t
        = (false, some "Role details cannot be empty") := by
      unfold InputValidator.validate_role_details
      rw [if_pos hcond]
    refine ⟨?_, fun _ => by rw [hval], fun h _ => absurd hws h, fun h _ _ => absurd hws h,
      fun h _ _ _ => absurd hws h, by decide⟩
    rw [hval]
    constructor
    · intro h
      simp at h
    · rintro ⟨h1, -, -, -⟩
      exact absurd hws h1
  · have hcond : ¬((t.isEmpty || (pyStrip t).isEmpty) = true) := by
      rw [empty_or_strip_iff t]
      exact hws
    by_cases hshort : t.length < InputValidator.MIN_LENGTH
    · have hval : InputValidator.validate_role_details t
          = (false, some ("Role details too short. Minimum "
              ++ toString InputValidator.MIN_LENGTH ++ " characters required")) := by
        unfold InputValidator.validate_role_details
        rw [if_neg hcond, if_pos hshort]
      refine ⟨?_, fun h => absurd h hws, fun _ _ => by rw [hval]; decide,
        fun _ h _ => by omega, fun _ h _ _ => by omega, by decide⟩
      rw [hval]
      constructor
      · intro h
        simp at h
      · rintro ⟨-, h2, -, -⟩
        exact absurd h2 (by omega)
    · by_cases hlong : InputValidator.MAX_LENGTH < t.length
      · have hval : InputValidator.validate_role_details t
            = (false, some ("Role details too long. Maximum "
                ++ toString InputValidator.MAX_LENGTH ++ " characters allowed")) := by
          unfold InputValidator.validate_role_details
          rw [if_neg hcond, if_neg hshort, if_pos hlong]
        refine ⟨?_, fun h => absurd h hws, fun _ h => by omega,
          fun _ _ _ => by rw [hval]; decide, fun _ _ h _ => by omega, by decide⟩
        rw [hval]
        constructor
        · intro h
          simp at h
        · rintro ⟨-, -, h3, -⟩
          exact absurd h3 (by omega)
      · by_cases halnum : hasAlnum t = true
        · have hval : InputValidator.validate_role_details t = (true, none) := by
            unfold InputValidator.validate_role_details
            rw [if_neg hcond, if_neg hshort, if_neg hlong, if_neg (by simp [halnum])]
          refine ⟨?_, fun h => absurd h hws, fun _ h => by omega, fun _ _ h => by omega,
            fun _ _ _ h => by simp [halnum] at h, by decide⟩
          rw [hval]
          constructor
          · intro _
            exact ⟨hws, by omega, by omega, halnum⟩
          · intro _
            rfl
        · have halnum' : hasAlnum t = false := by
            simpa using halnum
          have hval : InputValidator.validate_role_details t
              = (false, some "Role details must contain valid text") := by
            unfold InputValidator.validate_role_details
            rw [if_neg hcond, if_neg hshort, if_neg hlong, if_pos (by simp [halnum'])]
          refine ⟨?_, fun h => absurd h hws, fun _ h => by omega, fun _ _ h => by omega,
            fun _ _ _ _ => by rw [hval], by decide⟩
          rw [hval]
          constructor
          · intro h
            simp at h
          · rintro ⟨-, -, -, h4⟩
            simp [halnum'] at h4

/-- Witness for C4 at the specification's scenario `"hi"`: too short, with
the minimum-length reason. -/
theorem validate_role_details_spec_witness :
    (InputValidator.validate_role_details "hi".toList).2
      = some "Role details too short. Minimum 10 characters required" :=
  (validate_role_details_spec "hi".toList).2.2.1 (by decide) (by decide)

/-- C5: `ContentFilter.is_safe` tests the malicious (blacklist) category
first and on a match rejects with the malicious-content reason — regardless
of the inappropriate category; only when the malicious category does not
match is the inappropriate category consulted, rejecting with the
inappropriate-content reason on a match; the accepted texts are exactly
those matching neither category. -/
theorem is_safe_spec (t : List Char) :
    ((ContentFilter.is_safe t).1 = true ↔
      blacklist_search t = false ∧ inappropriate_search t = false)
    ∧ (blacklist_search t = true →
        ContentFilter.is_safe t
          = (false, some "Input contains potentially malicious content"))
    ∧ (blacklist_search t = false → inappropriate_search t = true →
        ContentFilter.is_safe t = (false, some "Input contains inappropriate content"))
    ∧ (blacklist_search t = false → inappropriate_search t = false →
        ContentFilter.is_safe t = (true, none)) := by
  by_cases hb : blacklist_search t = true
  · have hval : ContentFilter.is_safe t
        = (false, some "Input contains potentially malicious content") := by
      unfold ContentFilter.is_safe
      rw [if_pos hb]
    exact ⟨by simp [hval, hb], fun _ => hval, fun h => absurd hb (by simp [h]),
      fun h _ => absurd hb (by simp [h])⟩
  · have hb' : blacklist_search t = false := by simpa using hb
    by_cases hi : inappropriate_search t = true
    · have hval : ContentFilter.is_safe t
          = (false, some "Input contains inappropriate content") := by
        unfold ContentFilter.is_safe
        rw [if_neg hb, if_pos hi]
      exact ⟨by simp [hval, hi], fun h => absurd h (by simp [hb']),
        fun _ _ => hval, fun _ h => absurd hi (by simp [h])⟩
    · have hi' : inappropriate_search t = false := by simpa using hi
      have hval : ContentFilter.is_safe t = (true, none) := by
        unfold ContentFilter.is_safe
        rw [if_neg hb, if_neg hi]
      exact ⟨by simp [hval, hb', hi'], fun h => absurd h (by simp [hb']),
        fun _ h => absurd h (by simp [hi']), fun _ _ => hval⟩

/-- Witness for C5: the input `"hack it"` matches the blacklist category and
is rejected with the malicious-content reason. -/
theorem is_safe_spec_witness :
    ContentFilter.is_safe "hack it".toList
      = (false, some "Input contains potentially malicious content") :=
  (is_safe_spec "hack it".toList).2.1 (by decide)

/-- C3: `OutputValidator.validate_output` rejects any output shorter than
`MIN_OUTPUT_LENGTH` regardless of sections; longer output is never rejected
for length — it is truncated to `MAX_OUTPUT_LENGTH` characters (the
truncation keeps `min MAX_OUTPUT_LENGTH length` characters, so exactly
`MAX_OUTPUT_LENGTH` when the output exceeds it) and section presence is
judged on the truncated text; for length-admissible output, the result is
rejected with the format-mismatch reason exactly when fewer than 2 of the 4
section labels appear in the (possibly truncated) text. -/
theorem validate_output_spec (out : List Char) :
    (out.length < OutputValidator.MIN_OUTPUT_LENGTH →
      OutputValidator.validate_output out = (false, some "Generated output is too short"))
    ∧ (OutputValidator.MIN_OUTPUT_LENGTH ≤ out.length →
        ((OutputValidator.validate_output out).1 = true ↔
          2 ≤ sectionsCount (out.take OutputValidator.MAX_OUTPUT_LENGTH))
        ∧ ((OutputValidator.validate_output out).2
              = some "Generated output doesn't match expected format" ↔
            sectionsCount (out.take OutputValidator.MAX_OUTPUT_LENGTH) < 2))
    ∧ (out.take OutputValidator.MAX_OUTPUT_LENGTH).length
        = min OutputValidator.MAX_OUTPUT_LENGTH out.length := by
  refine ⟨fun hmin => ?_, fun hmin => ?_, List.length_take _ _⟩
  · unfold OutputValidator.validate_output
    rw [if_pos hmin]
  · have hval : OutputValidator.validate_output out
        = (if sectionsCount (out.take OutputValidator.MAX_OUTPUT_LENGTH) < 2 then
            (false, some "Generated output doesn't match expected format")
          else (true, none)) := by
      simp only [OutputValidator.validate_output,
        if_neg (by omega : ¬ out.length < OutputValidator.MIN_OUTPUT_LENGTH)]
      by_cases hmax : OutputValidator.MAX_OUTPUT_LENGTH < out.length
      · rw [if_pos hmax]
      · rw [if_neg hmax, List.take_of_length_le (by omega)]
    rw [hval]
    by_cases hsec : sectionsCount (out.take OutputValidator.MAX_OUTPUT_LENGTH) < 2
    · rw [if_pos hsec]
      exact ⟨⟨fun h => by simp at h, fun h => by omega⟩, ⟨fun _ => hsec, fun _ => rfl⟩⟩
    · rw [if_neg hsec]
      exact ⟨⟨fun _ => by omega, fun _ => rfl⟩,
        ⟨fun h => by simp at h, fun h => absurd h hsec⟩⟩

set_option maxRecDepth 8000 in
/-- Witness for C3 at a short output (`"hi"`, below the minimum of 100) and
at a 100-plus-character output containing two section labels: the first is
rejected with the too-short reason and the second is accepted. -/
theorem validate_output_spec_witness :
    OutputValidator.validate_output "hi".toList
      = (false, some "Generated output is too short")
    ∧ (OutputValidator.validate_output (List.replicate 40 'x'
        ++ "Job Title and Job Summary and padding to pass the length bound of one hundred".toList)).1
      = true :=
  ⟨(validate_output_spec "hi".toList).1 (by decide),
   ((validate_output_spec _).2.1 (by decide)).1.mpr (by decide)⟩

/- ===================== Output quality lemmas ===================== -/

theorem hasBulletWs_iff (l : List Char) :
    hasBulletWs l = true ↔ ∃ pre c w post, l = pre ++ c :: w :: post
      ∧ bulletChar c = true ∧ isPySpace w = true := by
  induction l with
  | nil =>
    simp only [hasBulletWs]
    constructor
    · intro h
      cases h
    · rintro ⟨pre, c, w, post, h, -, -⟩
      have := congrArg List.length h
      simp at this
      omega
  | cons a l ih =>
    cases l with
    | nil =>
      simp only [hasBulletWs]
      constructor
      · intro h
        cases h
      · rintro ⟨pre, c, w, post, h, -, -⟩
        have := congrArg List.length h
        simp at this
        omega
    | cons b l2 =>
      rw [hasBulletWs]
      constructor
      · intro h
        rcases Bool.or_eq_true _ _ |>.mp h with h | h
        · exact ⟨[], a, b, l2, rfl, (Bool.and_eq_true _ _ |>.mp h).1,
            (Bool.and_eq_true _ _ |>.mp h).2⟩
        · obtain ⟨pre, c, w, post, heq, hc, hw⟩ := ih.mp h
          exact ⟨a :: pre, c, w, post, by rw [List.cons_append, ← heq], hc, hw⟩
      · rintro ⟨pre, c, w, post, heq, hc, hw⟩
        rcases pre with _ | ⟨p, pre'⟩
        · simp only [List.nil_append] at heq
          obtain ⟨rfl, rfl, -⟩ : a = c ∧ b = w ∧ l2 = post := by
            injection heq with h1 h2
            injection h2 with h3 h4
            exact ⟨h1, h3, h4⟩
          apply Bool.or_eq_true _ _ |>.mpr
          exact Or.inl (Bool.and_eq_true _ _ |>.mpr ⟨hc, hw⟩)
        · simp only [List.cons_append] at heq
          injection heq with h1 h2
          apply Bool.or_eq_true _ _ |>.mpr
          exact Or.inr (ih.mpr ⟨pre', c, w, post, h2, hc, hw⟩)

/-- C8 (counterexample to the claim as stated): on the text `"a - b"`, the
`has_bullet_points` metric is `true`, although no bullet-marker character
appears at a line start — the code's regex accepts a bullet marker followed
by whitespace anywhere in the text. -/
theorem check_output_quality_bullet_counterexample :
    (OutputValidator.check_output_quality "a - b".toList).has_bullet_points = true
    ∧ specBulletAtLineStart "a - b".toList = false := by
  constructor
  · decide
  · decide

/-- C8 (amended): `check_output_quality` returns exactly the character
length, the whitespace-split word count, the list of section labels found as
case-insensitive substrings, a boolean that is true iff a character of the
code's bullet class — `-`, `\u00e2`, `\u20ac`, `\u00a2`, `*`, the
mojibake of an intended `-`, bullet point, `*` — immediately followed by a
whitespace character appears anywhere in the text (not only at line starts),
and a quality score equal to `min 100 (word_count / 5)`, hence never above
100. -/
theorem check_output_quality_spec (out : List Char) :
    (OutputValidator.check_output_quality out).length = out.length
    ∧ (OutputValidator.check_output_quality out).word_count = (pySplit out).length
    ∧ (∀ sec, sec ∈ (OutputValidator.check_output_quality out).sections_found ↔
        sec ∈ OutputValidator.REQUIRED_SECTIONS
          ∧ containsSub (lowerStr out) (lowerStr sec) = true)
    ∧ ((OutputValidator.check_output_quality out).has_bullet_points = true ↔
        ∃ pre c w post, out = pre ++ c :: w :: post ∧ bulletChar c = true
          ∧ isPySpace w = true)
    ∧ (OutputValidator.check_output_quality out).quality_score
        = min 100 (((pySplit out).length : ℚ) / 5)
    ∧ (OutputValidator.check_output_quality out).quality_score ≤ 100 := by
  refine ⟨rfl, rfl, ?_, ?_, rfl, ?_⟩
  · intro sec
    simp [OutputValidator.check_output_quality, List.mem_filter]
  · exact hasBulletWs_iff out
  · show min 100 (((pySplit out).length : ℚ) / 5) ≤ 100
    exact min_le_left _ _

/- ===================== Endpoint / truncation lemmas ===================== -/

theorem length_filter_cons_cons {α : Type} (p : α → Bool) (a b : α) (l : List α)
    (ha : p a = true) (hb : p b = true) : 2 ≤ ((a :: b :: l).filter p).length := by
  simp only [List.filter_cons, ha, if_true, hb, List.length_cons]
  omega

theorem containsSub_at_pos (hay needle : List Char) (i : ℕ) (hi : i ≤ hay.length)
    (h : needle <+: hay.drop i) : containsSub hay needle = true := by
  unfold containsSub
  rw [List.any_eq_true]
  exact ⟨i, List.mem_range.mpr (by omega), List.isPrefixOf_iff_prefix.mpr h⟩

/-- C10: truncation is local to `OutputValidator.validate_output`.  For
accepted over-length output, `GuardrailsManager.validate_output` computes
the quality metrics on the original untruncated string — the reported length
metric equals the true length and exceeds `MAX_OUTPUT_LENGTH` — and the
endpoint answers with the accepted text itself, unmodified. -/
theorem manager_validate_output_untruncated (out : List Char)
    (hacc : (OutputValidator.validate_output out).1 = true)
    (hlong : OutputValidator.MAX_OUTPUT_LENGTH < out.length) :
    GuardrailsManager.validate_output out
        = (true, none, some (OutputValidator.check_output_quality out))
    ∧ (OutputValidator.check_output_quality out).length = out.length
    ∧ OutputValidator.MAX_OUTPUT_LENGTH
        < (OutputValidator.check_output_quality out).length
    ∧ generate_jd_response out = some (out, OutputValidator.check_output_quality out) := by
  have hmgr : GuardrailsManager.validate_output out
      = (true, none, some (OutputValidator.check_output_quality out)) := by
    unfold GuardrailsManager.validate_output
    rw [if_neg (by simp [hacc])]
  refine ⟨hmgr, rfl, hlong, ?_⟩
  unfold generate_jd_response
  rw [hmgr]
  rfl

/-- The over-length test vector for C10: two section labels followed by 5001
filler characters, total length 5021. -/
def bigOut : List Char := "Job TitleJob Summary".toList ++ List.replicate 5001 'a'

theorem bigOut_length : bigOut.length = 5021 := by
  have h20 : ("Job TitleJob Summary".toList).length = 20 := by decide
  unfold bigOut
  rw [List.length_append, List.length_replicate, h20]

theorem bigOut_long : OutputValidator.MAX_OUTPUT_LENGTH < bigOut.length := by
  rw [bigOut_length]
  decide

theorem bigOut_take : bigOut.take OutputValidator.MAX_OUTPUT_LENGTH
    = "Job TitleJob Summary".toList ++ List.replicate 4980 'a' := by
  have h20 : ("Job TitleJob Summary".toList).length = 20 := by decide
  unfold bigOut OutputValidator.MAX_OUTPUT_LENGTH
  rw [List.take_append_eq_append_take, List.take_of_length_le (by rw [h20]; omega),
    List.take_replicate, h20]
  have hmin : min (5000 - 20) 5001 = 4980 := by norm_num
  rw [hmin]

theorem bigOut_take_lower : lowerStr (bigOut.take OutputValidator.MAX_OUTPUT_LENGTH)
    = "job titlejob summary".toList ++ List.replicate 4980 'a' := by
  rw [bigOut_take]
  unfold lowerStr
  rw [List.map_append, List.map_replicate]
  have h1 : "Job TitleJob Summary".toList.map Char.toLower
      = "job titlejob summary".toList := by decide
  have h2 : Char.toLower 'a' = 'a' := by decide
  rw [h1, h2]

theorem bigOut_sections :
    2 ≤ sectionsCount (bigOut.take OutputValidator.MAX_OUTPUT_LENGTH) := by
  have h20 : ("job titlejob summary".toList).length = 20 := by decide
  have htitle : containsSub (lowerStr (bigOut.take OutputValidator.MAX_OUTPUT_LENGTH))
      (lowerStr "Job Title".toList) = true := by
    rw [bigOut_take_lower]
    apply containsSub_at_pos _ _ 0 (by omega)
    rw [List.drop_zero]
    have hl : lowerStr "Job Title".toList = "job title".toList := by decide
    rw [hl]
    exact List.IsPrefix.trans ⟨"job summary".toList, by decide⟩ (List.prefix_append _ _)
  have hsummary : containsSub (lowerStr (bigOut.take OutputValidator.MAX_OUTPUT_LENGTH))
      (lowerStr "Job Summary".toList) = true := by
    rw [bigOut_take_lower]
    apply containsSub_at_pos _ _ 9
      (by rw [List.length_append, List.length_replicate, h20]; omega)
    rw [List.drop_append_eq_append_drop]
    have h9 : "job titlejob summary".toList.drop 9 = "job summary".toList := by decide
    have h0 : 9 - "job titlejob summary".toList.length = 0 := by rw [h20]
    rw [h9, h0, List.drop_zero]
    have hl : lowerStr "Job Summary".toList = "job summary".toList := by decide
    rw [hl]
    exact List.prefix_append _ _
  rw [sectionsCount, OutputValidator.REQUIRED_SECTIONS]
  exact length_filter_cons_cons _ _ _ _ htitle hsummary

theorem validate_output_accepts (out : List Char)
    (hmin : OutputValidator.MIN_OUTPUT_LENGTH ≤ out.length)
    (hsec : 2 ≤ sectionsCount (out.take OutputValidator.MAX_OUTPUT_LENGTH)) :
    (OutputValidator.validate_output out).1 = true := by
  unfold OutputValidator.validate_output
  rw [if_neg (by omega)]
  by_cases hmax : OutputValidator.MAX_OUTPUT_LENGTH < out.length
  · rw [if_pos hmax, if_neg (by omega)]
  · rw [if_neg hmax, if_neg (by rw [List.take_of_length_le (by omega)] at hsec; omega)]

theorem bigOut_accepted : (OutputValidator.validate_output bigOut).1 = true :=
  validate_output_accepts bigOut (by rw [bigOut_length]; decide) bigOut_sections

/-- Witness for C10 at `bigOut`: the length metric exceeds the maximum and
the endpoint returns the untruncated text. -/
theorem manager_validate_output_untruncated_witness :
    OutputValidator.MAX_OUTPUT_LENGTH
        < (OutputValidator.check_output_quality bigOut).length
    ∧ generate_jd_response bigOut
        = some (bigOut, OutputValidator.check_output_quality bigOut) :=
  ⟨(manager_validate_output_untruncated bigOut bigOut_accepted bigOut_long).2.2.1,
   (manager_validate_output_untruncated bigOut bigOut_accepted bigOut_long).2.2.2⟩

/- ===================== Sanitize lemmas (C6) ===================== -/

/-- C6 (counterexample to the claim as stated): `sanitize` is not idempotent.
On `"a < b"` step (3) deletes the `<` and leaves two adjacent spaces
(`"a  b"`), which a second application collapses to `"a b"`. -/
theorem sanitize_not_idempotent :
    ContentFilter.sanitize (ContentFilter.sanitize "a < b".toList)
      ≠ ContentFilter.sanitize "a < b".toList := by decide

theorem removeTagsAux_of_no_lt (t : List Char) (h : ∀ c ∈ t, c ≠ '<') :
    removeTagsAux t none = t := by
  induction t with
  | nil => rfl
  | cons c cs ih =>
    have hc : c ≠ '<' := h c (by simp)
    simp only [removeTagsAux, if_neg hc]
    rw [ih (fun x hx => h x (by simp [hx]))]

theorem removeTags_of_no_lt (t : List Char) (h : ∀ c ∈ t, c ≠ '<') :
    removeTags t = t := removeTagsAux_of_no_lt t h

theorem mem_collapseWs (t : List Char) : ∀ c ∈ collapseWs t, c = ' ' ∨ c ∈ t := by
  induction t with
  | nil => simp [collapseWs]
  | cons a t ih =>
    cases t with
    | nil =>
      intro c hc
      by_cases ha : isPySpace a = true
      · simp only [collapseWs, if_pos ha] at hc
        simp at hc
        exact Or.inl hc
      · simp only [collapseWs, if_neg ha] at hc
        simp at hc
        simp [hc]
    | cons b t2 =>
      intro c hc
      by_cases ha : isPySpace a = true
      · by_cases hb : isPySpace b = true
        · simp only [collapseWs, if_pos ha, if_pos hb] at hc
          rcases ih c hc with h | h
          · exact Or.inl h
          · exact Or.inr (by simp [h])
        · simp only [collapseWs, if_pos ha, if_neg hb] at hc
          rcases List.mem_cons.mp hc with rfl | h
          · exact Or.inl rfl
          · rcases ih c h with h' | h'
            · exact Or.inl h'
            · exact Or.inr (by simp [h'])
      · simp only [collapseWs, if_neg ha] at hc
        rcases List.mem_cons.mp hc with rfl | h
        · exact Or.inr (by simp)
        · rcases ih c h with h' | h'
          · exact Or.inl h'
          · exact Or.inr (by simp [h'])

theorem collapseWs_head? (t : List Char) :
    ∀ c, (collapseWs (c :: t)).head? = some (if isPySpace c = true then ' ' else c) := by
  induction t with
  | nil =>
    intro c
    by_cases hc : isPySpace c = true
    · simp [collapseWs, hc]
    · simp [collapseWs, hc]
  | cons d t2 ih =>
    intro c
    by_cases hc : isPySpace c = true
    · by_cases hd : isPySpace d = true
      · rw [if_pos hc]
        simp only [collapseWs, if_pos hc, if_pos hd]
        rw [ih d, if_pos hd]
      · simp [collapseWs, hc, hd]
    · simp [collapseWs, hc]

theorem collapseWs_space_mem (t : List Char) :
    ∀ c ∈ collapseWs t, isPySpace c = true → c = ' ' := by
  induction t with
  | nil => simp [collapseWs]
  | cons a t ih =>
    cases t with
    | nil =>
      intro c hc hsp
      by_cases ha : isPySpace a = true
      · simp only [collapseWs, if_pos ha] at hc
        simpa using hc
      · simp only [collapseWs, if_neg ha] at hc
        simp at hc
        rw [hc] at hsp
        exact absurd hsp ha
    | cons b t2 =>
      intro c hc hsp
      by_cases ha : isPySpace a = true
      · by_cases hb : isPySpace b = true
        · simp only [collapseWs, if_pos ha, if_pos hb] at hc
          exact ih c hc hsp
        · simp only [collapseWs, if_pos ha, if_neg hb] at hc
          rcases List.mem_cons.mp hc with rfl | h
          · rfl
          · exact ih c h hsp
      · simp only [collapseWs, if_neg ha] at hc
        rcases List.mem_cons.mp hc with rfl | h
        · exact absurd hsp ha
        · exact ih c h hsp

theorem collapseWs_chain' (t : List Char) :
    (collapseWs t).Chain'
      (fun a b => ¬(isPySpace a = true ∧ isPySpace b = true)) := by
  induction t with
  | nil => simp [collapseWs]
  | cons a t ih =>
    cases t with
    | nil =>
      by_cases ha : isPySpace a = true
      · simp [collapseWs, ha]
      · simp [collapseWs, ha]
    | cons b t2 =>
      by_cases ha : isPySpace a = true
      · by_cases hb : isPySpace b = true
        · simpa only [collapseWs, if_pos ha, if_pos hb] using ih
        · simp only [collapseWs, if_pos ha, if_neg hb]
          apply List.chain'_cons'.mpr
          refine ⟨?_, ih⟩
          intro y hy
          rw [collapseWs_head? t2 b, if_neg hb] at hy
          injection hy with hy
          subst hy
          rintro ⟨-, hsb⟩
          exact hb hsb
      · simp only [collapseWs, if_neg ha]
        apply List.chain'_cons'.mpr
        refine ⟨?_, ih⟩
        intro y hy
        rintro ⟨hsa, -⟩
        exact ha hsa

theorem collapseWs_eq_self (t : List Char)
    (hsp : ∀ c ∈ t, isPySpace c = true → c = ' ')
    (hch : t.Chain' (fun a b => ¬(isPySpace a = true ∧ isPySpace b = true))) :
    collapseWs t = t := by
  induction t with
  | nil => rfl
  | cons a t ih =>
    cases t with
    | nil =>
      by_cases ha : isPySpace a = true
      · simp only [collapseWs, if_pos ha]
        rw [hsp a (by simp) ha]
      · simp only [collapseWs, if_neg ha]
    | cons b t2 =>
      have hrel : ¬(isPySpace a = true ∧ isPySpace b = true) :=
        (List.chain'_cons.mp hch).1
      have htail := (List.chain'_cons.mp hch).2
      have hsp' : ∀ c ∈ b :: t2, isPySpace c = true → c = ' ' :=
        fun c hc => hsp c (by simp [hc])
      by_cases ha : isPySpace a = true
      · have hb : ¬ isPySpace b = true := fun hb => hrel ⟨ha, hb⟩
        simp only [collapseWs, if_pos ha, if_neg hb]
        rw [ih hsp' htail, hsp a (by simp) ha]
      · simp only [collapseWs, if_neg ha]
        rw [ih hsp' htail]

theorem pyStrip_subset (l : List Char) : ∀ c ∈ pyStrip l, c ∈ l := by
  intro c hc
  unfold pyStrip at hc
  have h1 : c ∈ l.dropWhile isPySpace :=
    (List.rdropWhile_prefix isPySpace (l.dropWhile isPySpace)).sublist.subset hc
  exact (List.dropWhile_suffix isPySpace).sublist.subset h1

theorem pyStrip_chain' {R : Char → Char → Prop} (l : List Char) (h : l.Chain' R) :
    (pyStrip l).Chain' R := by
  have h1 : (l.dropWhile isPySpace).Chain' R :=
    h.suffix (List.dropWhile_suffix isPySpace)
  exact List.Chain'.prefix h1 (List.rdropWhile_prefix isPySpace (l.dropWhile isPySpace))

theorem pyStrip_idempotent (l : List Char) : pyStrip (pyStrip l) = pyStrip l := by
  unfold pyStrip
  rcases hs : (l.dropWhile isPySpace).rdropWhile isPySpace with _ | ⟨a, s'⟩
  · simp
  · have hpre : a :: s' <+: l.dropWhile isPySpace := by
      rw [← hs]
      exact List.rdropWhile_prefix isPySpace (l.dropWhile isPySpace)
    obtain ⟨tl, htl⟩ := hpre
    have hpa : ¬ isPySpace a = true := by
      intro hpa
      have hidem : (l.dropWhile isPySpace).dropWhile isPySpace = l.dropWhile isPySpace :=
        List.dropWhile_idempotent isPySpace l
      rw [← htl, List.cons_append, List.dropWhile_cons, if_pos hpa] at hidem
      have hlen := congrArg List.length hidem
      have hle : ((s' ++ tl).dropWhile isPySpace).length ≤ (s' ++ tl).length :=
        (List.dropWhile_suffix isPySpace).sublist.length_le
      simp only [List.length_cons, List.length_append] at hlen hle
      omega
    have hdrop : (a :: s').dropWhile isPySpace = a :: s' := by
      rw [List.dropWhile_cons, if_neg hpa]
    rw [hdrop, ← hs, List.rdropWhile_idempotent]

/-- C6 (amended): `sanitize` is idempotent on every text containing none of
the characters `<`, `>`, `{`, `}`.  (In general it is not: removing those
characters in step (3) can merge two whitespace runs that only another pass
of step (2) would collapse — see the counterexample.) -/
theorem sanitize_idempotent_on_clean (t : List Char)
    (h : ∀ c ∈ t, isSpecialChar c = false) :
    ContentFilter.sanitize (ContentFilter.sanitize t) = ContentFilter.sanitize t := by
  have hlt : ∀ c ∈ t, c ≠ '<' := by
    intro c hc heq
    have := h c hc
    rw [heq] at this
    simp [isSpecialChar] at this
  have h1 : removeTags t = t := removeTags_of_no_lt t hlt
  have hu_spec : ∀ c ∈ collapseWs t, isSpecialChar c = false := by
    intro c hc
    rcases mem_collapseWs t c hc with rfl | hc'
    · decide
    · exact h c hc'
  have h2 : (collapseWs t).filter (fun c => !isSpecialChar c) = collapseWs t :=
    List.filter_eq_self.mpr (fun c hc => by rw [hu_spec c hc]; rfl)
  have hsan : ContentFilter.sanitize t = pyStrip (collapseWs t) := by
    unfold ContentFilter.sanitize
    rw [h1, h2]
  have hv_sub : ∀ c ∈ pyStrip (collapseWs t), c ∈ collapseWs t :=
    pyStrip_subset (collapseWs t)
  have hv_lt : ∀ c ∈ pyStrip (collapseWs t), c ≠ '<' := by
    intro c hc heq
    have := hu_spec c (hv_sub c hc)
    rw [heq] at this
    simp [isSpecialChar] at this
  have h3 : removeTags (pyStrip (collapseWs t)) = pyStrip (collapseWs t) :=
    removeTags_of_no_lt _ hv_lt
  have h4 : collapseWs (pyStrip (collapseWs t)) = pyStrip (collapseWs t) := by
    apply collapseWs_eq_self
    · intro c hc hsp
      exact collapseWs_space_mem t c (hv_sub c hc) hsp
    · exact pyStrip_chain' (collapseWs t) (collapseWs_chain' t)
  have h5 : (pyStrip (collapseWs t)).filter (fun c => !isSpecialChar c)
      = pyStrip (collapseWs t) :=
    List.filter_eq_self.mpr
      (fun c hc => by rw [hu_spec c (hv_sub c hc)]; rfl)
  have h6 : pyStrip (pyStrip (collapseWs t)) = pyStrip (collapseWs t) :=
    pyStrip_idempotent (collapseWs t)
  rw [hsan]
  unfold ContentFilter.sanitize
  rw [h3, h4, h5, h6]

/-- Witness for the amended C6 at `"a  b"` (no `<`, `>`, `{`, `}`): a second
sanitization changes nothing. -/
theorem sanitize_idempotent_on_clean_witness :
    ContentFilter.sanitize (ContentFilter.sanitize "a  b".toList)
      = ContentFilter.sanitize "a  b".toList :=
  sanitize_idempotent_on_clean "a  b".toList (by decide)
